import Mathlib

/-!
Shallow embedding of `x-pack/plugins/gis/public/elasticsearch_geo_utils.js`.

JavaScript numbers are modelled by `ℚ` (every concrete coordinate handled by
this module is a finite decimal).  JavaScript runtime values that flow through
the geo conversions are modelled by the inductive type `JsVal`; `undefined` is the
JavaScript `undefined` value and `nan` the number `NaN` (the two values the
code can produce for a missing coordinate component), `obj` is a JavaScript
object modelled as an association list of its own enumerable fields.
-/

inductive JsVal where
  | undefined
  | jsNull
  | jsBool (b : Bool)
  | num (q : ℚ)
  | nan
  | str (s : String)
  | arr (elems : List JsVal)
  | obj (fields : List (String × JsVal))

/-- JavaScript property read `v[key]` on a base that is neither `null` nor
`undefined` (a read on those throws a TypeError, which is modelled at the
call site that can reach it): on an object, the value stored under `key`
(`undefined` when absent); on any other, primitive, base the property is
absent and the read yields `undefined`. -/
def jsGet (v : JsVal) (key : String) : JsVal :=
  match v with
  | .obj fields =>
    match fields.lookup key with
    | some x => x
    | none => .undefined
  | _ => .undefined

/-- JavaScript property write `v[key] = x` on an object's field list: replace
the value stored under `key` when present, append the binding otherwise. -/
def objSet (fields : List (String × JsVal)) (key : String) (x : JsVal) :
    List (String × JsVal) :=
  if fields.any (fun p => p.1 = key) then
    fields.map (fun p => if p.1 = key then (key, x) else p)
  else fields ++ [(key, x)]

/-- JavaScript array read `xs[i]`: the element when in bounds, `undefined`
otherwise. -/
def arrGet (elems : List JsVal) (i : ℕ) : JsVal :=
  match elems.get? i with
  | some x => x
  | none => .undefined

/-- Helper for `splitOnComma`: accumulate the current piece (reversed) while
walking the character list. -/
def splitOnCommaAux : List Char → List Char → List String
  | [], acc => [String.mk acc.reverse]
  | c :: rest, acc =>
    if c = ',' then String.mk acc.reverse :: splitOnCommaAux rest []
    else splitOnCommaAux rest (c :: acc)

/-- The JavaScript `value.split(',')` used by `geoPointToGeometry`: split the
string at every comma; the result always has at least one piece, and has
exactly one piece precisely when the string holds no comma. -/
def splitOnComma (s : String) : List String :=
  splitOnCommaAux s.toList []

/-- Models the JavaScript `parseFloat` builtin on the decimal strings this
module handles: skip leading whitespace, read an optional sign, an integer
part and an optional fractional part, ignore any trailing characters, and
return `NaN` when no digit was read.  (The exponent form `1e3` is not
modelled; no caller in this file produces it.) -/
def parseFloat (s : String) : JsVal :=
  let cs := s.toList.dropWhile (fun c => c = ' ' ∨ c = '\t' ∨ c = '\n' ∨ c = '\r')
  let sign : ℚ := match cs with
    | '-' :: _ => -1
    | _ => 1
  let cs := match cs with
    | '-' :: rest => rest
    | '+' :: rest => rest
    | _ => cs
  let intPart := cs.takeWhile Char.isDigit
  let rest := cs.dropWhile Char.isDigit
  let fracPart := match rest with
    | '.' :: rest2 => rest2.takeWhile Char.isDigit
    | _ => []
  if intPart.isEmpty ∧ fracPart.isEmpty then .nan
  else .num (sign * ((intPart.foldl (fun n c => 10 * n + (c.toNat - 48)) 0 : ℕ) +
    fracPart.foldr (fun c acc => (((c.toNat - 48 : ℕ) : ℚ) + acc) / 10) 0))

/-- The GeoJSON point record `{ type: 'Point', coordinates: [lon, lat] }`
built by `geoPointToGeometry`. -/
def mkPointGeometry (lon lat : JsVal) : JsVal :=
  .obj [("type", .str "Point"), ("coordinates", .arr [lon, lat])]

/-- Embedding of `geoPointToGeometry(value)` from
`elasticsearch_geo_utils.js`: a string is split at commas — a single piece
means a geohash and throws, otherwise piece 0 parses as latitude and piece 1
as longitude; an array is read as `[lon, lat]`; a non-null object supplies its
`lat` and `lon` fields; every other value leaves both coordinates
`undefined`.  The result is `{ type: 'Point', coordinates: [lon, lat] }`. -/
def geoPointToGeometry (value : JsVal) : Except String JsVal :=
  match value with
  | .str s =>
    let commaSplit := splitOnComma s
    if commaSplit.length = 1 then
      .error "Unable to convert to geojson, geohash not supported"
    else
      .ok (mkPointGeometry (parseFloat (commaSplit.getD 1 ""))
        (parseFloat (commaSplit.getD 0 "")))
  | .arr elems => .ok (mkPointGeometry (arrGet elems 0) (arrGet elems 1))
  | .obj fields => .ok (mkPointGeometry (jsGet (.obj fields) "lon") (jsGet (.obj fields) "lat"))
  | _ => .ok (mkPointGeometry .undefined .undefined)

/-- Models the lodash `_.cloneDeep` call of `geoShapeToGeometry`: in a pure
value semantics a deep copy is the value itself. -/
def cloneDeep (v : JsVal) : JsVal := v

/-- The fixed six-entry lowercase-to-mixed-case translation applied by the
`switch` of `geoShapeToGeometry`; tags outside the table pass through. -/
def shapeTypeTable (t : String) : String :=
  if t = "point" then "Point"
  else if t = "linestring" then "LineString"
  else if t = "polygon" then "Polygon"
  else if t = "multipoint" then "MultiPoint"
  else if t = "multilinestring" then "MultiLineString"
  else if t = "geometrycollection" then "GeometryCollection"
  else t

/-- Embedding of `geoShapeToGeometry(value)`: a string throws (WKT is
unsupported); the value is deep-copied and the `switch` reads
`geoJson.type` with no guard, so a `null` or `undefined` value throws a
TypeError right there; otherwise the `type` field is rewritten through the
`switch` over the six lowercase Elasticsearch tags, and the result throws
when the resulting tag is `envelope` or `circle`, else is returned. -/
def geoShapeToGeometry (value : JsVal) : Except String JsVal :=
  match value with
  | .str _ => .error "Unable to convert WKT to geojson, not supported"
  | _ =>
    let geoJson := cloneDeep value
    match geoJson with
    | .undefined => .error "TypeError: Cannot read properties of undefined (reading type)"
    | .jsNull => .error "TypeError: Cannot read properties of null (reading type)"
    | geoJson0 =>
      let geoJson1 := match geoJson0 with
        | .obj fields =>
          match jsGet (.obj fields) "type" with
          | .str t =>
            if t = "point" then .obj (objSet fields "type" (.str "Point"))
            else if t = "linestring" then .obj (objSet fields "type" (.str "LineString"))
            else if t = "polygon" then .obj (objSet fields "type" (.str "Polygon"))
            else if t = "multipoint" then .obj (objSet fields "type" (.str "MultiPoint"))
            else if t = "multilinestring" then .obj (objSet fields "type" (.str "MultiLineString"))
            else if t = "geometrycollection" then .obj (objSet fields "type" (.str "GeometryCollection"))
            else .obj fields
          | _ => .obj fields
        | v => v
      match jsGet geoJson1 "type" with
      | .str t =>
        if t = "envelope" ∨ t = "circle" then
          .error (s!"Unable to convert {t} geometry to geojson, not supported")
        else .ok geoJson1
      | _ => .ok geoJson1

/-- A map viewport rectangle, with the fields in the order in which
`convertMapExtentToEnvelope` destructures them. -/
structure MapExtent where
  maxLat : ℚ
  maxLon : ℚ
  minLat : ℚ
  minLon : ℚ

/-- A `{ lat, lon }` corner record of a `geo_bounding_box` filter. -/
structure LatLonPair where
  lat : ℚ
  lon : ℚ

/-- The `geo_bounding_box` filter built by `createExtentFilter` for
`geo_point` fields. -/
structure GeoBoundingBoxFilter where
  fieldName : String
  top_left : LatLonPair
  bottom_right : LatLonPair

/-- The `geo_shape` envelope filter built by `createExtentFilter` for
`geo_shape` fields; the coordinates are the `[[minLon, maxLat], [maxLon,
minLat]]` corner pairs. -/
structure GeoShapeFilter where
  fieldName : String
  shapeType : String
  coordinates : (ℚ × ℚ) × (ℚ × ℚ)
  relation : String

/-- The two filter shapes `createExtentFilter` can return. -/
inductive ExtentFilter where
  | boundingBox (f : GeoBoundingBoxFilter)
  | shapeIntersects (f : GeoShapeFilter)

/-- Embedding of `createExtentFilter(mapExtent, geoFieldName, geoFieldType)`:
build `noWrapMapExtent` by replacing `minLon < -180` with `-180`,
`minLat < -90` with `-90`, `maxLon > 180` with `180` and `maxLat > 90` with
`90` (each bound is tested against one side only, exactly as in the source),
then return the bounding-box filter for `geo_point`, the intersects envelope
filter for `geo_shape`, and throw for any other field type. -/
def createExtentFilter (mapExtent : MapExtent) (geoFieldName geoFieldType : String) :
    Except String ExtentFilter :=
  let noWrapMapExtent : MapExtent :=
    { minLon := if mapExtent.minLon < -180 then -180 else mapExtent.minLon,
      minLat := if mapExtent.minLat < -90 then -90 else mapExtent.minLat,
      maxLon := if mapExtent.maxLon > 180 then 180 else mapExtent.maxLon,
      maxLat := if mapExtent.maxLat > 90 then 90 else mapExtent.maxLat }
  if geoFieldType = "geo_point" then
    .ok (.boundingBox
      { fieldName := geoFieldName,
        top_left := { lat := noWrapMapExtent.maxLat, lon := noWrapMapExtent.minLon },
        bottom_right := { lat := noWrapMapExtent.minLat, lon := noWrapMapExtent.maxLon } })
  else if geoFieldType = "geo_shape" then
    .ok (.shapeIntersects
      { fieldName := geoFieldName,
        shapeType := "envelope",
        coordinates := ((noWrapMapExtent.minLon, noWrapMapExtent.maxLat),
          (noWrapMapExtent.maxLon, noWrapMapExtent.minLat)),
        relation := "INTERSECTS" })
  else
    .error (s!"Unsupported field type, expected: geo_shape or geo_point, you provided: {geoFieldType}")

/-- `true` when every latitude of the filter lies in `[-90, 90]` and every
longitude in `[-180, 180]`. -/
def extentFilterInRange : ExtentFilter → Bool
  | .boundingBox f =>
    decide (-90 ≤ f.top_left.lat) && decide (f.top_left.lat ≤ 90) &&
    decide (-90 ≤ f.bottom_right.lat) && decide (f.bottom_right.lat ≤ 90) &&
    decide (-180 ≤ f.top_left.lon) && decide (f.top_left.lon ≤ 180) &&
    decide (-180 ≤ f.bottom_right.lon) && decide (f.bottom_right.lon ≤ 180)
  | .shapeIntersects f =>
    decide (-180 ≤ f.coordinates.1.1) && decide (f.coordinates.1.1 ≤ 180) &&
    decide (-90 ≤ f.coordinates.1.2) && decide (f.coordinates.1.2 ≤ 90) &&
    decide (-180 ≤ f.coordinates.2.1) && decide (f.coordinates.2.1 ≤ 180) &&
    decide (-90 ≤ f.coordinates.2.2) && decide (f.coordinates.2.2 ≤ 90)

/-- The base-case record `{ "type": "envelope", "coordinates": [[minLon,
maxLat], [maxLon, minLat]] }` of `convertMapExtentToEnvelope`. -/
structure Envelope where
  type : String
  coordinates : (ℚ × ℚ) × (ℚ × ℚ)

/-- The irregular return shape of `convertMapExtentToEnvelope`: either a
single envelope record, or a two-element array whose elements are themselves
results (possibly nested when a half needed further splitting). -/
inductive EnvResult where
  | single (e : Envelope)
  | split (fst snd : EnvResult)

/-- Termination measure for the recursion of `convertMapExtentToEnvelope`:
how far `maxLon` still exceeds `180` plus how far `minLon` still falls below
`-180`, both rounded up to an integer. -/
def extentMeasure (e : MapExtent) : ℕ :=
  (⌈e.maxLon - 180⌉).toNat + (⌈-180 - e.minLon⌉).toNat

theorem ceil_sub180_pos {x : ℚ} (h : 180 < x) : 0 < ⌈x - 180⌉ :=
  Int.ceil_pos.mpr (by linarith)

theorem ceil_sub180_nonpos {x : ℚ} (h : ¬ 180 < x) : ⌈x - 180⌉ ≤ 0 :=
  Int.ceil_le.mpr (by push_cast; linarith)

theorem ceil_neg180_pos {x : ℚ} (h : x < -180) : 0 < ⌈-180 - x⌉ :=
  Int.ceil_pos.mpr (by linarith)

theorem ceil_neg180_nonpos {x : ℚ} (h : ¬ x < -180) : ⌈-180 - x⌉ ≤ 0 :=
  Int.ceil_le.mpr (by push_cast; linarith)

theorem extentMeasure_branch1 (e : MapExtent) (h1 : e.maxLon > 180) (h2 : e.minLon < -180) :
    extentMeasure ⟨e.maxLat, 180, e.minLat, -180⟩ < extentMeasure e := by
  have ha := ceil_sub180_pos h1
  have hb := ceil_neg180_pos h2
  have e1 : ⌈(180 : ℚ) - 180⌉ = 0 := by norm_num
  have e2 : ⌈(-180 : ℚ) - -180⌉ = 0 := by norm_num
  show (⌈(180 : ℚ) - 180⌉).toNat + (⌈(-180 : ℚ) - -180⌉).toNat <
    (⌈e.maxLon - 180⌉).toNat + (⌈-180 - e.minLon⌉).toNat
  rw [e1, e2]
  omega

theorem extentMeasure_branch2a (e : MapExtent) (h1 : e.maxLon > 180) :
    extentMeasure ⟨e.maxLat, 180, e.minLat, e.minLon⟩ < extentMeasure e := by
  have ha := ceil_sub180_pos h1
  have e1 : ⌈(180 : ℚ) - 180⌉ = 0 := by norm_num
  show (⌈(180 : ℚ) - 180⌉).toNat + (⌈-180 - e.minLon⌉).toNat <
    (⌈e.maxLon - 180⌉).toNat + (⌈-180 - e.minLon⌉).toNat
  rw [e1]
  omega

theorem extentMeasure_branch2b (e : MapExtent) (h1 : e.maxLon > 180) :
    extentMeasure ⟨e.maxLat, -180 + (e.maxLon - 180), e.minLat, -180⟩ < extentMeasure e := by
  have ha := ceil_sub180_pos h1
  have e2 : ⌈(-180 : ℚ) - -180⌉ = 0 := by norm_num
  have hshift : (-180 + (e.maxLon - 180) : ℚ) - 180 = (e.maxLon - 180) - ((360 : ℤ) : ℚ) := by
    push_cast; ring
  show (⌈(-180 + (e.maxLon - 180) : ℚ) - 180⌉).toNat + (⌈(-180 : ℚ) - -180⌉).toNat <
    (⌈e.maxLon - 180⌉).toNat + (⌈-180 - e.minLon⌉).toNat
  rw [e2, hshift, Int.ceil_sub_int]
  omega

theorem extentMeasure_branch3a (e : MapExtent) (h2 : ¬ e.maxLon > 180) (h3 : e.minLon < -180) :
    extentMeasure ⟨e.maxLat, 180, e.minLat, 180 - (|e.minLon| - 180)⟩ < extentMeasure e := by
  have ha := ceil_sub180_nonpos h2
  have hb := ceil_neg180_pos h3
  have e1 : ⌈(180 : ℚ) - 180⌉ = 0 := by norm_num
  have habs : |e.minLon| = -e.minLon := abs_of_neg (by linarith)
  have hshift : (-180 : ℚ) - (180 - (|e.minLon| - 180)) = (-180 - e.minLon) - ((360 : ℤ) : ℚ) := by
    rw [habs]; push_cast; ring
  show (⌈(180 : ℚ) - 180⌉).toNat + (⌈(-180 : ℚ) - (180 - (|e.minLon| - 180))⌉).toNat <
    (⌈e.maxLon - 180⌉).toNat + (⌈-180 - e.minLon⌉).toNat
  rw [e1, hshift, Int.ceil_sub_int]
  omega

theorem extentMeasure_branch3b (e : MapExtent) (h3 : e.minLon < -180) :
    extentMeasure ⟨e.maxLat, e.maxLon, e.minLat, -180⟩ < extentMeasure e := by
  have hb := ceil_neg180_pos h3
  have e2 : ⌈(-180 : ℚ) - -180⌉ = 0 := by norm_num
  show (⌈e.maxLon - 180⌉).toNat + (⌈(-180 : ℚ) - -180⌉).toNat <
    (⌈e.maxLon - 180⌉).toNat + (⌈-180 - e.minLon⌉).toNat
  rw [e2]
  omega

/-- Embedding of `convertMapExtentToEnvelope({ maxLat, maxLon, minLat,
minLon })`: bounds exceeding both `±180` are clamped to exactly `±180` and
the operation recurses; bounds crossing the dateline east past `180` are
split into `[minLon, 180]` and `[-180, -180 + (maxLon - 180)]`; bounds
crossing west past `-180` split into `[180 - (|minLon| - 180), 180]` and
`[-180, maxLon]`; otherwise a single envelope record is returned.
Coordinates are exact rationals: within the coordinate magnitudes of the
properties proved below the source's float64 arithmetic is exact, but at
huge magnitudes (one ulp above `360`) the source's `±360` shifts are
absorbed by rounding, a regime this model does not capture. -/
def convertMapExtentToEnvelope (e : MapExtent) : EnvResult :=
  if h1 : e.maxLon > 180 ∧ e.minLon < -180 then
    convertMapExtentToEnvelope ⟨e.maxLat, 180, e.minLat, -180⟩
  else if h2 : e.maxLon > 180 then
    EnvResult.split
      (convertMapExtentToEnvelope ⟨e.maxLat, 180, e.minLat, e.minLon⟩)
      (convertMapExtentToEnvelope ⟨e.maxLat, -180 + (e.maxLon - 180), e.minLat, -180⟩)
  else if h3 : e.minLon < -180 then
    EnvResult.split
      (convertMapExtentToEnvelope ⟨e.maxLat, 180, e.minLat, 180 - (|e.minLon| - 180)⟩)
      (convertMapExtentToEnvelope ⟨e.maxLat, e.maxLon, e.minLat, -180⟩)
  else
    EnvResult.single ⟨"envelope", ((e.minLon, e.maxLat), (e.maxLon, e.minLat))⟩
termination_by extentMeasure e
decreasing_by
  · exact extentMeasure_branch1 e h1.1 h1.2
  · exact extentMeasure_branch2a e h2
  · exact extentMeasure_branch2b e h2
  · exact extentMeasure_branch3a e h2 h3
  · exact extentMeasure_branch3b e h3

/-- `true` when every envelope record occurring anywhere in the (possibly
nested) result has both longitude coordinates within `[-180, 180]`. -/
def envLonsInRange : EnvResult → Bool
  | .single env =>
    decide (-180 ≤ env.coordinates.1.1) && decide (env.coordinates.1.1 ≤ 180) &&
    decide (-180 ≤ env.coordinates.2.1) && decide (env.coordinates.2.1 ≤ 180)
  | .split a b => envLonsInRange a && envLonsInRange b

/-- A search hit as consumed by `hitsToGeoJson`: the `_source` document and
the `fields` payload of computed values, each modelled as an association
list of a JavaScript object's own enumerable fields. -/
structure Hit where
  _source : List (String × JsVal)
  fields : List (String × JsVal)

/-- A GeoJSON feature record `{ type: 'Feature', geometry, properties }`. -/
structure Feature where
  type : String
  geometry : JsVal
  properties : List (String × JsVal)

/-- The `{ type: 'FeatureCollection', features }` record returned by
`hitsToGeoJson`. -/
structure FeatureCollection where
  type : String
  features : List Feature

/-- The `Array.isArray(val) && val.length === 1 ? val[0] : val` unwrapping
applied to each `hit.fields` value. -/
def unwrapSingle : JsVal → JsVal
  | .arr [x] => x
  | v => v

/-- The properties object assembled per hit: every own `_source` field other
than the geo field, then every `fields` entry (single-element arrays
unwrapped), assigned in order. -/
def hitProperties (geoFieldName : String) (hit : Hit) : List (String × JsVal) :=
  (hit.fields.map (fun p => (p.1, unwrapSingle p.2))).foldl
    (fun props p => objSet props p.1 p.2)
    (hit._source.filter (fun p => ¬ p.1 = geoFieldName))

/-- The geometry dispatch of the `.map` callback of `hitsToGeoJson`:
`geo_point` and `geo_shape` call the two conversions, any other field type
throws. -/
def hitGeometry (geoFieldType : String) (value : JsVal) : Except String JsVal :=
  if geoFieldType = "geo_point" then geoPointToGeometry value
  else if geoFieldType = "geo_shape" then geoShapeToGeometry value
  else .error (s!"Unsupported field type, expected: geo_shape or geo_point, you provided: {geoFieldType}")

/-- The `.map` callback of `hitsToGeoJson` for one surviving hit: read the
geo field value, convert it to a geometry, and build the feature record. -/
def hitToFeature (geoFieldName geoFieldType : String) (hit : Hit) : Except String Feature :=
  (hitGeometry geoFieldType ((hit._source.lookup geoFieldName).getD .undefined)).map
    (fun geometry =>
      { type := "Feature", geometry := geometry,
        properties := hitProperties geoFieldName hit })

/-- Embedding of `hitsToGeoJson(hits, geoFieldName, geoFieldType)`: keep the
hits whose `_source` owns the geo field, map each one to a feature (the first
conversion failure propagates as the thrown error), and wrap the list in a
feature collection. -/
def hitsToGeoJson (hits : List Hit) (geoFieldName geoFieldType : String) :
    Except String FeatureCollection :=
  ((hits.filter (fun hit => (hit._source.lookup geoFieldName).isSome)).mapM
      (hitToFeature geoFieldName geoFieldType)).map
    (fun features => { type := "FeatureCollection", features := features })

example : geoPointToGeometry (.str "abc") =
    .error "Unable to convert to geojson, geohash not supported" := rfl

example : geoPointToGeometry (.str "1.5,2") =
    .ok (mkPointGeometry (.num 2) (.num (3/2))) := by
  simp +decide [geoPointToGeometry, splitOnComma, splitOnCommaAux, parseFloat, mkPointGeometry]
  norm_num

example : geoShapeToGeometry (.obj [("type", .str "linestring"), ("coordinates", .arr [])]) =
    .ok (.obj [("type", .str "LineString"), ("coordinates", .arr [])]) := rfl

example : geoShapeToGeometry (.obj [("type", .str "circle")]) =
    .error "Unable to convert circle geometry to geojson, not supported" := rfl

theorem clampLow_mem (x b : ℚ) (hb : 0 ≤ b) (h : x ≤ b) :
    -b ≤ (if x < -b then -b else x) ∧ (if x < -b then -b else x) ≤ b := by
  split_ifs with h' <;> constructor <;> linarith

theorem clampHigh_mem (x b : ℚ) (hb : 0 ≤ b) (h : -b ≤ x) :
    -b ≤ (if x > b then b else x) ∧ (if x > b then b else x) ≤ b := by
  split_ifs with h' <;> constructor <;> linarith

/-- C1 (amended): `createExtentFilter` clamps each bound from one side only
(`minLon`/`minLat` from below against `-180`/`-90`, `maxLon`/`maxLat` from
above against `180`/`90`); therefore for every extent whose bounds do not
overshoot on the unchecked side (`minLon ≤ 180`, `-180 ≤ maxLon`,
`minLat ≤ 90`, `-90 ≤ maxLat`) and either supported geo field type, the
returned filter exists and every longitude of it lies in `[-180, 180]` and
every latitude in `[-90, 90]`. -/
theorem createExtentFilter_inRange (e : MapExtent) (name gft : String)
    (hg : gft = "geo_point" ∨ gft = "geo_shape")
    (h1 : e.minLon ≤ 180) (h2 : -180 ≤ e.maxLon) (h3 : e.minLat ≤ 90) (h4 : -90 ≤ e.maxLat) :
    ∃ F, createExtentFilter e name gft = .ok F ∧ extentFilterInRange F = true := by
  have A := clampHigh_mem e.maxLat 90 (by norm_num) h4
  have B := clampLow_mem e.minLon 180 (by norm_num) h1
  have C := clampLow_mem e.minLat 90 (by norm_num) h3
  have D := clampHigh_mem e.maxLon 180 (by norm_num) h2
  rcases hg with hg | hg <;> subst hg
  · refine ⟨_, rfl, ?_⟩
    simp only [createExtentFilter, extentFilterInRange, Bool.and_eq_true, decide_eq_true_eq]
    exact ⟨⟨⟨⟨⟨⟨⟨A.1, A.2⟩, C.1⟩, C.2⟩, B.1⟩, B.2⟩, D.1⟩, D.2⟩
  · refine ⟨_, rfl, ?_⟩
    simp only [createExtentFilter, extentFilterInRange, Bool.and_eq_true, decide_eq_true_eq]
    exact ⟨⟨⟨⟨⟨⟨⟨B.1, B.2⟩, A.1⟩, A.2⟩, D.1⟩, D.2⟩, C.1⟩, C.2⟩

theorem createExtentFilter_inRange_witness :
    (((-200 : ℚ) ≤ 180) ∧ ((-180 : ℚ) ≤ 200) ∧ ((-100 : ℚ) ≤ 90) ∧ ((-90 : ℚ) ≤ 100)) ∧
    ∃ F, createExtentFilter ⟨100, 200, -100, -200⟩ "location" "geo_point" = .ok F ∧
      extentFilterInRange F = true :=
  ⟨by norm_num,
    createExtentFilter_inRange ⟨100, 200, -100, -200⟩ "location" "geo_point" (Or.inl rfl)
      (by norm_num) (by norm_num) (by norm_num) (by norm_num)⟩

/-- C1 (counterexample): the extent `{maxLat: 10, maxLon: 210, minLat: 0,
minLon: 190}` has bounds outside the valid longitude range, yet the
`geo_point` filter built from it keeps the unclamped `minLon = 190` as its
top-left longitude, which is outside `[-180, 180]`. -/
theorem createExtentFilter_outOfRange_cex :
    createExtentFilter ⟨10, 210, 0, 190⟩ "location" "geo_point" =
      .ok (.boundingBox ⟨"location", ⟨10, 190⟩, ⟨0, 180⟩⟩) ∧
    extentFilterInRange (.boundingBox ⟨"location", ⟨10, 190⟩, ⟨0, 180⟩⟩) = false := by
  constructor
  · unfold createExtentFilter
    norm_num
  · have hnot : ¬ ((190 : ℚ) ≤ 180) := by norm_num
    simp [extentFilterInRange, hnot]

/-- C3: for every extent with `-180 ≤ minLon` and `maxLon ≤ 180` (no
dateline crossing), `convertMapExtentToEnvelope` returns the single record
tagged `"envelope"` with coordinates `[[minLon, maxLat], [maxLon, minLat]]`;
the latitudes pass through unchanged, whatever their values. -/
theorem convertMapExtentToEnvelope_base (e : MapExtent)
    (h1 : -180 ≤ e.minLon) (h2 : e.maxLon ≤ 180) :
    convertMapExtentToEnvelope e =
      .single ⟨"envelope", ((e.minLon, e.maxLat), (e.maxLon, e.minLat))⟩ := by
  unfold convertMapExtentToEnvelope
  rw [dif_neg (fun h => (not_lt.mpr h1) h.2), dif_neg (not_lt.mpr h2),
    dif_neg (not_lt.mpr h1)]

theorem convertMapExtentToEnvelope_base_witness :
    (((-180 : ℚ) ≤ -170) ∧ ((170 : ℚ) ≤ 180)) ∧
    convertMapExtentToEnvelope ⟨10, 170, -10, -170⟩ =
      .single ⟨"envelope", ((-170, 10), (170, -10))⟩ :=
  ⟨by norm_num, convertMapExtentToEnvelope_base ⟨10, 170, -10, -170⟩ (by norm_num) (by norm_num)⟩

/-- C2: for every extent with `minLon` in `[-180, 180]` and `maxLon` in
`(180, 540]`, `convertMapExtentToEnvelope` splits into exactly two single
envelopes: `[[minLon, maxLat], [180, minLat]]` and `[[-180, maxLat],
[maxLon - 360, minLat]]`. -/
theorem convertMapExtentToEnvelope_eastSplit (e : MapExtent)
    (h1 : -180 ≤ e.minLon) (h2 : e.minLon ≤ 180) (h3 : 180 < e.maxLon) (h4 : e.maxLon ≤ 540) :
    convertMapExtentToEnvelope e =
      .split (.single ⟨"envelope", ((e.minLon, e.maxLat), (180, e.minLat))⟩)
        (.single ⟨"envelope", ((-180, e.maxLat), (e.maxLon - 360, e.minLat))⟩) := by
  unfold convertMapExtentToEnvelope
  rw [dif_neg (fun h => (not_lt.mpr h1) h.2), dif_pos h3,
    convertMapExtentToEnvelope_base ⟨e.maxLat, 180, e.minLat, e.minLon⟩ h1 le_rfl,
    convertMapExtentToEnvelope_base ⟨e.maxLat, -180 + (e.maxLon - 180), e.minLat, -180⟩
      le_rfl (by show -180 + (e.maxLon - 180) ≤ 180; linarith)]
  have harith : (-180 : ℚ) + (e.maxLon - 180) = e.maxLon - 360 := by ring
  simp only [harith]

theorem convertMapExtentToEnvelope_eastSplit_witness :
    (((-180 : ℚ) ≤ 170) ∧ ((170 : ℚ) ≤ 180) ∧ ((180 : ℚ) < 190) ∧ ((190 : ℚ) ≤ 540)) ∧
    convertMapExtentToEnvelope ⟨10, 190, -10, 170⟩ =
      .split (.single ⟨"envelope", ((170, 10), (180, -10))⟩)
        (.single ⟨"envelope", ((-180, 10), (-170, -10))⟩) := by
  refine ⟨by norm_num, ?_⟩
  have h := convertMapExtentToEnvelope_eastSplit ⟨10, 190, -10, 170⟩
    (by norm_num) (by norm_num) (by norm_num) (by norm_num)
  norm_num at h
  exact h

theorem envLons_aux (n : ℕ) (e : MapExtent) (hm : extentMeasure e < n)
    (hmin : e.minLon ≤ 180) (hmax : -180 ≤ e.maxLon) :
    envLonsInRange (convertMapExtentToEnvelope e) = true := by
  induction n generalizing e with
  | zero => exact absurd hm (Nat.not_lt_zero _)
  | succ n ih =>
    unfold convertMapExtentToEnvelope
    by_cases hb1 : e.maxLon > 180 ∧ e.minLon < -180
    · rw [dif_pos hb1]
      exact ih _ (Nat.lt_of_lt_of_le (extentMeasure_branch1 e hb1.1 hb1.2)
        (Nat.le_of_lt_succ hm)) (by norm_num) (by norm_num)
    · rw [dif_neg hb1]
      by_cases hb2 : e.maxLon > 180
      · rw [dif_pos hb2]
        simp only [envLonsInRange, Bool.and_eq_true]
        constructor
        · exact ih _ (Nat.lt_of_lt_of_le (extentMeasure_branch2a e hb2)
            (Nat.le_of_lt_succ hm)) hmin (by norm_num)
        · exact ih _ (Nat.lt_of_lt_of_le (extentMeasure_branch2b e hb2)
            (Nat.le_of_lt_succ hm)) (by norm_num)
            (by show (-180 : ℚ) ≤ -180 + (e.maxLon - 180); linarith)
      · rw [dif_neg hb2]
        by_cases hb3 : e.minLon < -180
        · rw [dif_pos hb3]
          simp only [envLonsInRange, Bool.and_eq_true]
          constructor
          · refine ih _ (Nat.lt_of_lt_of_le (extentMeasure_branch3a e hb2 hb3)
              (Nat.le_of_lt_succ hm)) ?_ (by norm_num)
            show 180 - (|e.minLon| - 180) ≤ 180
            rw [abs_of_neg (show e.minLon < 0 by linarith)]
            linarith
          · exact ih _ (Nat.lt_of_lt_of_le (extentMeasure_branch3b e hb3)
              (Nat.le_of_lt_succ hm)) (by norm_num) hmax
        · rw [dif_neg hb3]
          simp only [envLonsInRange, Bool.and_eq_true, decide_eq_true_eq]
          push_neg at hb2 hb3
          exact ⟨⟨⟨hb3, hmin⟩, hmax⟩, hb2⟩

/-- C4 (amended): for every extent that does not lie entirely beyond the
dateline (`minLon ≤ 180` and `-180 ≤ maxLon`), every envelope occurring
anywhere in the output of `convertMapExtentToEnvelope` has both longitude
coordinates within `[-180, 180]`. -/
theorem convertMapExtentToEnvelope_lonsInRange (e : MapExtent)
    (hmin : e.minLon ≤ 180) (hmax : -180 ≤ e.maxLon) :
    envLonsInRange (convertMapExtentToEnvelope e) = true :=
  envLons_aux (extentMeasure e + 1) e (Nat.lt_succ_self _) hmin hmax

theorem convertMapExtentToEnvelope_lonsInRange_witness :
    (((170 : ℚ) ≤ 180) ∧ ((-180 : ℚ) ≤ 190)) ∧
    envLonsInRange (convertMapExtentToEnvelope ⟨10, 190, -10, 170⟩) = true :=
  ⟨by norm_num,
    convertMapExtentToEnvelope_lonsInRange ⟨10, 190, -10, 170⟩ (by norm_num) (by norm_num)⟩

/-- C4 (counterexample): the extent `{maxLat: 0, maxLon: 200, minLat: 0,
minLon: 190}` — entirely east of the dateline — is split into an envelope
whose first longitude coordinate is `190`, outside `[-180, 180]`. -/
theorem convertMapExtentToEnvelope_lonsInRange_cex :
    envLonsInRange (convertMapExtentToEnvelope ⟨0, 200, 0, 190⟩) = false := by
  have h : convertMapExtentToEnvelope ⟨0, 200, 0, 190⟩ =
      .split (.single ⟨"envelope", ((190, 0), (180, 0))⟩)
        (.single ⟨"envelope", ((-180, 0), (-160, 0))⟩) := by
    unfold convertMapExtentToEnvelope
    rw [dif_neg (by norm_num), dif_pos (by norm_num),
      convertMapExtentToEnvelope_base ⟨(0 : ℚ), 180, 0, 190⟩ (by norm_num) (by norm_num),
      convertMapExtentToEnvelope_base ⟨(0 : ℚ), -180 + ((200 : ℚ) - 180), 0, -180⟩
        (by norm_num) (by norm_num)]
    norm_num
  rw [h]
  have hnot : ¬ ((190 : ℚ) ≤ 180) := by norm_num
  simp [envLonsInRange, hnot]

theorem splitOnCommaAux_ne_nil (cs acc : List Char) : splitOnCommaAux cs acc ≠ [] := by
  induction cs generalizing acc with
  | nil => simp [splitOnCommaAux]
  | cons c rest ih =>
    by_cases hc : c = ','
    · simp [splitOnCommaAux, hc]
    · simp only [splitOnCommaAux, if_neg hc]
      exact ih _

theorem splitOnCommaAux_length_eq_one (cs acc : List Char) :
    (splitOnCommaAux cs acc).length = 1 ↔ ',' ∉ cs := by
  induction cs generalizing acc with
  | nil => simp [splitOnCommaAux]
  | cons c rest ih =>
    by_cases hc : c = ','
    · subst hc
      have hnil := splitOnCommaAux_ne_nil rest ([] : List Char)
      have hlen : (splitOnCommaAux rest []).length ≠ 0 := by
        simpa [List.length_eq_zero] using hnil
      simp only [splitOnCommaAux, ite_true, List.length_cons]
      apply iff_of_false
      · omega
      · intro hcon
        exact hcon (List.mem_cons_self _ _)
    · simp only [splitOnCommaAux, if_neg hc]
      rw [ih]
      constructor
      · intro h hmem
        rcases List.mem_cons.mp hmem with hmem | hmem
        · exact hc hmem.symm
        · exact h hmem
      · intro h hmem
        exact h (List.mem_cons.mpr (Or.inr hmem))

/-- The single-piece test of the source (`commaSplit.length === 1`) holds
exactly when the string holds no comma. -/
theorem splitOnComma_length_eq_one (s : String) :
    (splitOnComma s).length = 1 ↔ ',' ∉ s.toList :=
  splitOnCommaAux_length_eq_one s.toList []

/-- C6: whenever the text `s` encodes the pair `lat`,`lon` (it contains a
comma, its first comma-piece parses as `lat` and its second as `lon`), the
three point encodings — the text, the `[lon, lat]` array, and the
`{lat, lon}` record — are all mapped by `geoPointToGeometry` to the same
`Point` geometry with coordinates `[lon, lat]`. -/
theorem geoPointToGeometry_encodings_agree (s : String) (lat lon : ℚ)
    (hsplit : (splitOnComma s).length ≠ 1)
    (hlat : parseFloat ((splitOnComma s).getD 0 "") = .num lat)
    (hlon : parseFloat ((splitOnComma s).getD 1 "") = .num lon) :
    geoPointToGeometry (.str s) = .ok (mkPointGeometry (.num lon) (.num lat)) ∧
    geoPointToGeometry (.arr [.num lon, .num lat]) =
      .ok (mkPointGeometry (.num lon) (.num lat)) ∧
    geoPointToGeometry (.obj [("lat", .num lat), ("lon", .num lon)]) =
      .ok (mkPointGeometry (.num lon) (.num lat)) := by
  refine ⟨?_, rfl, rfl⟩
  simp only [geoPointToGeometry, if_neg hsplit, hlat, hlon]

theorem geoPointToGeometry_encodings_agree_witness :
    ((splitOnComma "3,4").length ≠ 1 ∧
      parseFloat ((splitOnComma "3,4").getD 0 "") = .num 3 ∧
      parseFloat ((splitOnComma "3,4").getD 1 "") = .num 4) ∧
    geoPointToGeometry (.str "3,4") = .ok (mkPointGeometry (.num 4) (.num 3)) ∧
    geoPointToGeometry (.arr [.num 4, .num 3]) = .ok (mkPointGeometry (.num 4) (.num 3)) ∧
    geoPointToGeometry (.obj [("lat", .num 3), ("lon", .num 4)]) =
      .ok (mkPointGeometry (.num 4) (.num 3)) := by
  have h0 : (splitOnComma "3,4").getD 0 "" = "3" := rfl
  have h1 : (splitOnComma "3,4").getD 1 "" = "4" := rfl
  have hlat : parseFloat "3" = JsVal.num 3 := by
    simp +decide [parseFloat]
  have hlon : parseFloat "4" = JsVal.num 4 := by
    simp +decide [parseFloat]
  refine ⟨⟨by decide, by rw [h0]; exact hlat, by rw [h1]; exact hlon⟩, ?_⟩
  exact geoPointToGeometry_encodings_agree "3,4" 3 4 (by decide)
    (by rw [h0]; exact hlat) (by rw [h1]; exact hlon)

/-- C7: `geoPointToGeometry` throws exactly on a text value holding no comma
(the geohash case); every other input — other text, `null`, numbers, `NaN`,
booleans, `undefined`, arrays of any length, records with or without
`lat`/`lon` fields — returns a `Point` record without throwing, its
coordinate components possibly `undefined`. -/
theorem geoPointToGeometry_error_iff (v : JsVal) :
    ((∃ msg, geoPointToGeometry v = .error msg) ↔ ∃ s, v = .str s ∧ ',' ∉ s.toList) ∧
    ((∀ s, v = .str s → ',' ∈ s.toList) →
      ∃ lon lat, geoPointToGeometry v = .ok (mkPointGeometry lon lat)) := by
  constructor
  · constructor
    · intro ⟨msg, hmsg⟩
      cases v with
      | str s =>
        refine ⟨s, rfl, (splitOnComma_length_eq_one s).mp ?_⟩
        by_contra hne
        simp only [geoPointToGeometry, if_neg hne] at hmsg
        exact Except.noConfusion hmsg
      | undefined => simp [geoPointToGeometry] at hmsg
      | jsNull => simp [geoPointToGeometry] at hmsg
      | jsBool b => simp [geoPointToGeometry] at hmsg
      | num q => simp [geoPointToGeometry] at hmsg
      | nan => simp [geoPointToGeometry] at hmsg
      | arr elems => simp [geoPointToGeometry] at hmsg
      | obj fields => simp [geoPointToGeometry] at hmsg
    · rintro ⟨s, rfl, hnc⟩
      refine ⟨"Unable to convert to geojson, geohash not supported", ?_⟩
      simp only [geoPointToGeometry, if_pos ((splitOnComma_length_eq_one s).mpr hnc)]
  · intro hno
    cases v with
    | str s =>
      have hmem := hno s rfl
      have hne : (splitOnComma s).length ≠ 1 := by
        rw [ne_eq, splitOnComma_length_eq_one]
        simpa using hmem
      exact ⟨parseFloat ((splitOnComma s).getD 1 ""), parseFloat ((splitOnComma s).getD 0 ""),
        by simp only [geoPointToGeometry, if_neg hne]⟩
    | undefined => exact ⟨_, _, rfl⟩
    | jsNull => exact ⟨_, _, rfl⟩
    | jsBool b => exact ⟨_, _, rfl⟩
    | num q => exact ⟨_, _, rfl⟩
    | nan => exact ⟨_, _, rfl⟩
    | arr elems => exact ⟨_, _, rfl⟩
    | obj fields => exact ⟨_, _, rfl⟩

theorem geoPointToGeometry_error_iff_witness :
    (∃ msg, geoPointToGeometry (.str "abc") = .error msg) ∧
    ((∀ s, JsVal.jsNull = JsVal.str s → ',' ∈ s.toList) ∧
      ∃ lon lat, geoPointToGeometry .jsNull = .ok (mkPointGeometry lon lat)) := by
  constructor
  · exact (geoPointToGeometry_error_iff (.str "abc")).1.mpr ⟨"abc", rfl, by decide⟩
  · exact ⟨fun s hs => absurd hs (by simp),
      (geoPointToGeometry_error_iff .jsNull).2 (fun s hs => absurd hs (by simp))⟩

theorem lookup_cons_self (k : String) (b : JsVal) (l : List (String × JsVal)) :
    List.lookup k ((k, b) :: l) = some b := by
  simp [List.lookup_cons]

theorem lookup_cons_ne {k a : String} (b : JsVal) (l : List (String × JsVal)) (hk : ¬ k = a) :
    List.lookup k ((a, b) :: l) = List.lookup k l := by
  simp [List.lookup_cons, beq_false_of_ne hk]

theorem any_of_lookup {l : List (String × JsVal)} {k : String} {x : JsVal}
    (h : l.lookup k = some x) : l.any (fun p => p.1 = k) = true := by
  induction l with
  | nil => simp [List.lookup] at h
  | cons p rest ih =>
    obtain ⟨a, b⟩ := p
    by_cases hk : k = a
    · subst hk
      simp
    · rw [lookup_cons_ne b rest hk] at h
      simp only [List.any_cons, Bool.or_eq_true]
      exact Or.inr (ih h)

theorem lookup_map_overwrite {l : List (String × JsVal)} {k : String} {x v : JsVal}
    (h : l.lookup k = some v) :
    (l.map (fun p => if p.1 = k then (k, x) else p)).lookup k = some x := by
  induction l with
  | nil => simp [List.lookup] at h
  | cons p rest ih =>
    obtain ⟨a, b⟩ := p
    by_cases hk : k = a
    · subst hk
      simp only [List.map_cons, ite_true]
      exact lookup_cons_self k x _
    · have h' : rest.lookup k = some v := by
        rwa [lookup_cons_ne b rest hk] at h
      simp only [List.map_cons]
      rw [if_neg (fun hh : (a, b).1 = k => hk hh.symm), lookup_cons_ne b _ hk]
      exact ih h'

/-- After `objSet fields k x` on an object that owns `k`, reading `k` gives
back `x`. -/
theorem jsGet_objSet {fields : List (String × JsVal)} {k : String} {x v : JsVal}
    (h : fields.lookup k = some v) :
    jsGet (.obj (objSet fields k x)) k = x := by
  rw [objSet, if_pos (any_of_lookup h)]
  simp only [jsGet, lookup_map_overwrite h]

theorem map_overwrite_of_no_key {l : List (String × JsVal)} {k : String} {x : JsVal}
    (hno : ∀ q ∈ l, ¬ q.1 = k) :
    l.map (fun p => if p.1 = k then (k, x) else p) = l := by
  induction l with
  | nil => rfl
  | cons p rest ih =>
    simp only [List.map_cons, if_neg (hno p (List.mem_cons_self _ _))]
    rw [ih (fun q hq => hno q (List.mem_cons_of_mem _ hq))]

theorem map_overwrite_self {l : List (String × JsVal)} {k : String} {v : JsVal}
    (hnd : (l.map Prod.fst).Nodup) (h : l.lookup k = some v) :
    l.map (fun p => if p.1 = k then (k, v) else p) = l := by
  induction l with
  | nil => rfl
  | cons p rest ih =>
    obtain ⟨a, b⟩ := p
    simp only [List.map_cons, List.nodup_cons] at hnd
    by_cases hk : k = a
    · subst hk
      have hb : b = v := Option.some.inj (by rwa [lookup_cons_self k b rest] at h)
      subst hb
      simp only [List.map_cons, ite_self]
      congr 1
      apply map_overwrite_of_no_key
      intro q hq hqk
      exact hnd.1 (by simpa [hqk] using List.mem_map_of_mem Prod.fst hq)
    · have h' : rest.lookup k = some v := by
        rwa [lookup_cons_ne b rest hk] at h
      simp only [List.map_cons]
      rw [if_neg (fun hh : (a, b).1 = k => hk hh.symm), ih hnd.2 h']

/-- Overwriting the value stored under `k` with the value already stored
there leaves an object with JavaScript-unique keys unchanged. -/
theorem objSet_eq_self {l : List (String × JsVal)} {k : String} {v : JsVal}
    (hnd : (l.map Prod.fst).Nodup) (h : l.lookup k = some v) :
    objSet l k v = l := by
  rw [objSet, if_pos (any_of_lookup h)]
  exact map_overwrite_self hnd h

theorem lookup_of_jsGet_str {fields : List (String × JsVal)} {k : String} {t : String}
    (h : jsGet (.obj fields) k = .str t) : fields.lookup k = some (.str t) := by
  cases hl : fields.lookup k with
  | none => simp [jsGet, hl] at h
  | some x =>
    simp only [jsGet, hl] at h
    rw [h]

/-- Evaluation of `geoShapeToGeometry` on an object whose `type` field reads
as the string `t`: the switch is an if-chain over the six table entries,
then the translated tag is tested against `envelope`/`circle`. -/
theorem geoShape_obj_str (fields : List (String × JsVal)) (t : String)
    (htag : jsGet (.obj fields) "type" = .str t) :
    geoShapeToGeometry (.obj fields) =
      if t = "point" then .ok (.obj (objSet fields "type" (.str "Point")))
      else if t = "linestring" then .ok (.obj (objSet fields "type" (.str "LineString")))
      else if t = "polygon" then .ok (.obj (objSet fields "type" (.str "Polygon")))
      else if t = "multipoint" then .ok (.obj (objSet fields "type" (.str "MultiPoint")))
      else if t = "multilinestring" then .ok (.obj (objSet fields "type" (.str "MultiLineString")))
      else if t = "geometrycollection" then .ok (.obj (objSet fields "type" (.str "GeometryCollection")))
      else if t = "envelope" ∨ t = "circle" then
        .error (s!"Unable to convert {t} geometry to geojson, not supported")
      else .ok (.obj fields) := by
  have hlk := lookup_of_jsGet_str htag
  by_cases h1 : t = "point"
  · subst h1; simp [geoShapeToGeometry, cloneDeep, htag, jsGet_objSet hlk]
  by_cases h2 : t = "linestring"
  · subst h2; simp [geoShapeToGeometry, cloneDeep, htag, jsGet_objSet hlk]
  by_cases h3 : t = "polygon"
  · subst h3; simp [geoShapeToGeometry, cloneDeep, htag, jsGet_objSet hlk]
  by_cases h4 : t = "multipoint"
  · subst h4; simp [geoShapeToGeometry, cloneDeep, htag, jsGet_objSet hlk]
  by_cases h5 : t = "multilinestring"
  · subst h5; simp [geoShapeToGeometry, cloneDeep, htag, jsGet_objSet hlk]
  by_cases h6 : t = "geometrycollection"
  · subst h6; simp [geoShapeToGeometry, cloneDeep, htag, jsGet_objSet hlk]
  simp only [geoShapeToGeometry, cloneDeep, htag, if_neg h1, if_neg h2, if_neg h3,
    if_neg h4, if_neg h5, if_neg h6]

/-- Evaluation of `geoShapeToGeometry` on an object whose `type` field does
not read as any string: the object passes through untouched. -/
theorem geoShape_obj_nonstr (fields : List (String × JsVal))
    (h : ∀ s, jsGet (.obj fields) "type" ≠ .str s) :
    geoShapeToGeometry (.obj fields) = .ok (.obj fields) := by
  cases hjs : jsGet (.obj fields) "type" with
  | str s => exact absurd hjs (h s)
  | undefined => simp [geoShapeToGeometry, cloneDeep, hjs]
  | jsNull => simp [geoShapeToGeometry, cloneDeep, hjs]
  | jsBool b => simp [geoShapeToGeometry, cloneDeep, hjs]
  | num q => simp [geoShapeToGeometry, cloneDeep, hjs]
  | nan => simp [geoShapeToGeometry, cloneDeep, hjs]
  | arr elems => simp [geoShapeToGeometry, cloneDeep, hjs]
  | obj fs => simp [geoShapeToGeometry, cloneDeep, hjs]

/-- C8 (counterexample): the source's `switch (geoJson.type)` reads the
`type` property off the deep copy before any guard, so a `null` input —
neither a text value nor a record tagged `envelope`/`circle` — still throws
(a TypeError) instead of returning a converted record. -/
theorem geoShapeToGeometry_null_cex :
    geoShapeToGeometry JsVal.jsNull =
      .error "TypeError: Cannot read properties of null (reading type)" := rfl

/-- C8 (amended): `geoShapeToGeometry` throws exactly when its input is
text, `null` or `undefined` (the unguarded `geoJson.type` read throws a
TypeError on those two), or an object whose (lowercase) type tag is
`envelope` or `circle`; on any other object with JavaScript-unique keys and
a string tag, it returns the object with the tag rewritten through the
fixed six-entry table (tags outside the table pass through) and every other
field unchanged; objects without a string tag pass through whole. -/
theorem geoShapeToGeometry_spec (v : JsVal) :
    ((∃ msg, geoShapeToGeometry v = .error msg) ↔
      ((∃ s, v = .str s) ∨ v = .jsNull ∨ v = .undefined ∨
        jsGet v "type" = .str "envelope" ∨ jsGet v "type" = .str "circle")) ∧
    (∀ fields t, v = .obj fields → (fields.map Prod.fst).Nodup →
      jsGet v "type" = .str t → ¬ t = "envelope" → ¬ t = "circle" →
      geoShapeToGeometry v = .ok (.obj (objSet fields "type" (.str (shapeTypeTable t))))) ∧
    (∀ fields, v = .obj fields → (∀ s, jsGet v "type" ≠ .str s) →
      geoShapeToGeometry v = .ok v) := by
  refine ⟨?_, ?_, ?_⟩
  · cases v with
    | str s =>
      exact iff_of_true ⟨"Unable to convert WKT to geojson, not supported", rfl⟩
        (Or.inl ⟨s, rfl⟩)
    | obj fields =>
      cases hjs : jsGet (.obj fields) "type" with
      | str t =>
        rw [geoShape_obj_str fields t hjs]
        by_cases ht : t = "envelope" ∨ t = "circle"
        · rcases ht with h | h <;> subst h <;> simp
        · apply iff_of_false
          · rintro ⟨msg, hmsg⟩
            split_ifs at hmsg
          · rintro (⟨s, hs⟩ | hn | hu | h | h)
            · exact JsVal.noConfusion hs
            · exact JsVal.noConfusion hn
            · exact JsVal.noConfusion hu
            · exact ht (Or.inl (by injection h))
            · exact ht (Or.inr (by injection h))
      | undefined =>
        rw [geoShape_obj_nonstr fields (fun s hs => by rw [hjs] at hs; cases hs)]
        apply iff_of_false
        · rintro ⟨msg, hmsg⟩
          exact Except.noConfusion hmsg
        · rintro (⟨s, hs⟩ | hn | hu | h | h)
          · exact JsVal.noConfusion hs
          · exact JsVal.noConfusion hn
          · exact JsVal.noConfusion hu
          · exact JsVal.noConfusion h
          · exact JsVal.noConfusion h
      | jsNull =>
        rw [geoShape_obj_nonstr fields (fun s hs => by rw [hjs] at hs; cases hs)]
        apply iff_of_false
        · rintro ⟨msg, hmsg⟩
          exact Except.noConfusion hmsg
        · rintro (⟨s, hs⟩ | hn | hu | h | h)
          · exact JsVal.noConfusion hs
          · exact JsVal.noConfusion hn
          · exact JsVal.noConfusion hu
          · exact JsVal.noConfusion h
          · exact JsVal.noConfusion h
      | jsBool b =>
        rw [geoShape_obj_nonstr fields (fun s hs => by rw [hjs] at hs; cases hs)]
        apply iff_of_false
        · rintro ⟨msg, hmsg⟩
          exact Except.noConfusion hmsg
        · rintro (⟨s, hs⟩ | hn | hu | h | h)
          · exact JsVal.noConfusion hs
          · exact JsVal.noConfusion hn
          · exact JsVal.noConfusion hu
          · exact JsVal.noConfusion h
          · exact JsVal.noConfusion h
      | num q =>
        rw [geoShape_obj_nonstr fields (fun s hs => by rw [hjs] at hs; cases hs)]
        apply iff_of_false
        · rintro ⟨msg, hmsg⟩
          exact Except.noConfusion hmsg
        · rintro (⟨s, hs⟩ | hn | hu | h | h)
          · exact JsVal.noConfusion hs
          · exact JsVal.noConfusion hn
          · exact JsVal.noConfusion hu
          · exact JsVal.noConfusion h
          · exact JsVal.noConfusion h
      | nan =>
        rw [geoShape_obj_nonstr fields (fun s hs => by rw [hjs] at hs; cases hs)]
        apply iff_of_false
        · rintro ⟨msg, hmsg⟩
          exact Except.noConfusion hmsg
        · rintro (⟨s, hs⟩ | hn | hu | h | h)
          · exact JsVal.noConfusion hs
          · exact JsVal.noConfusion hn
          · exact JsVal.noConfusion hu
          · exact JsVal.noConfusion h
          · exact JsVal.noConfusion h
      | arr elems =>
        rw [geoShape_obj_nonstr fields (fun s hs => by rw [hjs] at hs; cases hs)]
        apply iff_of_false
        · rintro ⟨msg, hmsg⟩
          exact Except.noConfusion hmsg
        · rintro (⟨s, hs⟩ | hn | hu | h | h)
          · exact JsVal.noConfusion hs
          · exact JsVal.noConfusion hn
          · exact JsVal.noConfusion hu
          · exact JsVal.noConfusion h
          · exact JsVal.noConfusion h
      | obj fs =>
        rw [geoShape_obj_nonstr fields (fun s hs => by rw [hjs] at hs; cases hs)]
        apply iff_of_false
        · rintro ⟨msg, hmsg⟩
          exact Except.noConfusion hmsg
        · rintro (⟨s, hs⟩ | hn | hu | h | h)
          · exact JsVal.noConfusion hs
          · exact JsVal.noConfusion hn
          · exact JsVal.noConfusion hu
          · exact JsVal.noConfusion h
          · exact JsVal.noConfusion h
    | undefined =>
      exact iff_of_true
        ⟨"TypeError: Cannot read properties of undefined (reading type)", rfl⟩
        (Or.inr (Or.inr (Or.inl rfl)))
    | jsNull =>
      exact iff_of_true
        ⟨"TypeError: Cannot read properties of null (reading type)", rfl⟩
        (Or.inr (Or.inl rfl))
    | jsBool b =>
      apply iff_of_false
      · rintro ⟨msg, hmsg⟩
        simp [geoShapeToGeometry, cloneDeep, jsGet] at hmsg
      · rintro (⟨s, hs⟩ | hn | hu | h | h)
        · exact JsVal.noConfusion hs
        · exact JsVal.noConfusion hn
        · exact JsVal.noConfusion hu
        · simp [jsGet] at h
        · simp [jsGet] at h
    | num q =>
      apply iff_of_false
      · rintro ⟨msg, hmsg⟩
        simp [geoShapeToGeometry, cloneDeep, jsGet] at hmsg
      · rintro (⟨s, hs⟩ | hn | hu | h | h)
        · exact JsVal.noConfusion hs
        · exact JsVal.noConfusion hn
        · exact JsVal.noConfusion hu
        · simp [jsGet] at h
        · simp [jsGet] at h
    | nan =>
      apply iff_of_false
      · rintro ⟨msg, hmsg⟩
        simp [geoShapeToGeometry, cloneDeep, jsGet] at hmsg
      · rintro (⟨s, hs⟩ | hn | hu | h | h)
        · exact JsVal.noConfusion hs
        · exact JsVal.noConfusion hn
        · exact JsVal.noConfusion hu
        · simp [jsGet] at h
        · simp [jsGet] at h
    | arr elems =>
      apply iff_of_false
      · rintro ⟨msg, hmsg⟩
        simp [geoShapeToGeometry, cloneDeep, jsGet] at hmsg
      · rintro (⟨s, hs⟩ | hn | hu | h | h)
        · exact JsVal.noConfusion hs
        · exact JsVal.noConfusion hn
        · exact JsVal.noConfusion hu
        · simp [jsGet] at h
        · simp [jsGet] at h
  · rintro fields t rfl hnd htag he hc
    rw [geoShape_obj_str fields t htag]
    simp only [shapeTypeTable]
    have hor : ¬ (t = "envelope" ∨ t = "circle") := fun h => h.elim he hc
    split_ifs
    · rfl
    · rfl
    · rfl
    · rfl
    · rfl
    · rfl
    · rw [objSet_eq_self hnd (lookup_of_jsGet_str htag)]
  · rintro fields rfl h
    exact geoShape_obj_nonstr fields h

theorem geoShapeToGeometry_spec_witness :
    ((List.map Prod.fst
        [("type", JsVal.str "linestring"), ("coordinates", JsVal.arr [])]).Nodup ∧
      jsGet (.obj [("type", JsVal.str "linestring"), ("coordinates", JsVal.arr [])]) "type" =
        .str "linestring" ∧
      ¬ "linestring" = "envelope" ∧ ¬ "linestring" = "circle") ∧
    geoShapeToGeometry (.obj [("type", JsVal.str "linestring"), ("coordinates", JsVal.arr [])]) =
      .ok (.obj (objSet [("type", JsVal.str "linestring"), ("coordinates", JsVal.arr [])]
        "type" (.str (shapeTypeTable "linestring")))) := by
  refine ⟨⟨by decide, rfl, by decide, by decide⟩, ?_⟩
  exact (geoShapeToGeometry_spec
      (.obj [("type", JsVal.str "linestring"), ("coordinates", JsVal.arr [])])).2.1
    [("type", JsVal.str "linestring"), ("coordinates", JsVal.arr [])] "linestring"
    rfl (by decide) rfl (by decide) (by decide)

theorem mapM_ok_of_all_ok (f : Hit → Except String Feature) (l : List Hit)
    (h : ∀ x ∈ l, ∃ y, f x = .ok y) :
    ∃ ys, l.mapM f = .ok ys ∧ List.Forall₂ (fun x y => f x = .ok y) l ys := by
  induction l with
  | nil => exact ⟨[], rfl, List.Forall₂.nil⟩
  | cons x xs ih =>
    obtain ⟨y, hy⟩ := h x (List.mem_cons_self _ _)
    obtain ⟨ys, hys, hfa⟩ := ih (fun z hz => h z (List.mem_cons_of_mem _ hz))
    refine ⟨y :: ys, ?_, List.Forall₂.cons hy hfa⟩
    rw [List.mapM_cons, hy, hys]
    rfl

/-- C9 (amended): for either supported geo field type, whenever every hit
owning the geo field converts to a feature without error, `hitsToGeoJson`
returns a `FeatureCollection` whose features correspond one-to-one, in
order, to exactly the hits owning the geo field; hits lacking the field are
silently dropped. -/
theorem hitsToGeoJson_features (hits : List Hit) (name gft : String)
    (hg : gft = "geo_point" ∨ gft = "geo_shape")
    (hconv : ∀ hit ∈ hits, (hit._source.lookup name).isSome →
      ∃ f, hitToFeature name gft hit = .ok f) :
    ∃ fs, hitsToGeoJson hits name gft = .ok ⟨"FeatureCollection", fs⟩ ∧
      List.Forall₂ (fun hit f => hitToFeature name gft hit = .ok f)
        (hits.filter (fun hit => (hit._source.lookup name).isSome)) fs := by
  have hall : ∀ x ∈ hits.filter (fun hit => (hit._source.lookup name).isSome),
      ∃ y, hitToFeature name gft x = .ok y := by
    intro x hx
    rw [List.mem_filter] at hx
    exact hconv x hx.1 (by simpa using hx.2)
  obtain ⟨ys, hys, hfa⟩ := mapM_ok_of_all_ok _ _ hall
  refine ⟨ys, ?_, hfa⟩
  rw [hitsToGeoJson, hys]
  rfl

theorem hitsToGeoJson_features_witness :
    (("geo_point" = "geo_point" ∨ ("geo_point" : String) = "geo_shape") ∧
      (∀ hit ∈ [(⟨[("location", JsVal.obj [("lat", JsVal.num 1), ("lon", JsVal.num 2)]),
            ("a", JsVal.num 1)], []⟩ : Hit),
          (⟨[("a", JsVal.num 2)], []⟩ : Hit),
          (⟨[("location", JsVal.obj [("lat", JsVal.num 3), ("lon", JsVal.num 4)])], []⟩ : Hit)],
        (hit._source.lookup "location").isSome →
          ∃ f, hitToFeature "location" "geo_point" hit = .ok f)) ∧
    ∃ fs, hitsToGeoJson
        [⟨[("location", JsVal.obj [("lat", JsVal.num 1), ("lon", JsVal.num 2)]),
            ("a", JsVal.num 1)], []⟩,
          ⟨[("a", JsVal.num 2)], []⟩,
          ⟨[("location", JsVal.obj [("lat", JsVal.num 3), ("lon", JsVal.num 4)])], []⟩]
        "location" "geo_point" = .ok ⟨"FeatureCollection", fs⟩ ∧
      List.Forall₂ (fun hit f => hitToFeature "location" "geo_point" hit = .ok f)
        (List.filter (fun hit => (hit._source.lookup "location").isSome)
          [⟨[("location", JsVal.obj [("lat", JsVal.num 1), ("lon", JsVal.num 2)]),
              ("a", JsVal.num 1)], []⟩,
            ⟨[("a", JsVal.num 2)], []⟩,
            ⟨[("location", JsVal.obj [("lat", JsVal.num 3), ("lon", JsVal.num 4)])], []⟩]) fs := by
  have hconv : ∀ hit ∈ [(⟨[("location", JsVal.obj [("lat", JsVal.num 1), ("lon", JsVal.num 2)]),
          ("a", JsVal.num 1)], []⟩ : Hit),
        (⟨[("a", JsVal.num 2)], []⟩ : Hit),
        (⟨[("location", JsVal.obj [("lat", JsVal.num 3), ("lon", JsVal.num 4)])], []⟩ : Hit)],
      (hit._source.lookup "location").isSome →
        ∃ f, hitToFeature "location" "geo_point" hit = .ok f := by
    intro hit hm
    rcases List.mem_cons.mp hm with rfl | hm
    · exact fun _ => ⟨_, rfl⟩
    rcases List.mem_cons.mp hm with rfl | hm
    · exact fun _ => ⟨_, rfl⟩
    rcases List.mem_cons.mp hm with rfl | hm
    · exact fun _ => ⟨_, rfl⟩
    · exact absurd hm (List.not_mem_nil _)
  exact ⟨⟨Or.inl rfl, hconv⟩,
    hitsToGeoJson_features _ "location" "geo_point" (Or.inl rfl) hconv⟩

/-- C9 (counterexample): a hit whose geo field holds the comma-free text
`"abc"` makes `hitsToGeoJson` throw the geohash error instead of returning a
feature collection. -/
theorem hitsToGeoJson_throws_cex :
    hitsToGeoJson [⟨[("location", JsVal.str "abc")], []⟩] "location" "geo_point" =
      .error "Unable to convert to geojson, geohash not supported" := rfl

/-- C10: for a geoFieldType other than `geo_point`/`geo_shape`, the
unsupported-field-type error is raised exactly when some input record owns
the geo field; when no record owns it — in particular on empty input — the
result is an empty `FeatureCollection` without any error, whatever the
field type. -/
theorem hitsToGeoJson_unsupported_type (hits : List Hit) (name gft : String)
    (h1 : ¬ gft = "geo_point") (h2 : ¬ gft = "geo_shape") :
    ((∃ msg, hitsToGeoJson hits name gft = .error msg) ↔
      ∃ hit ∈ hits, (hit._source.lookup name).isSome) ∧
    ((∀ hit ∈ hits, ¬ (hit._source.lookup name).isSome) →
      hitsToGeoJson hits name gft = .ok ⟨"FeatureCollection", []⟩) := by
  have hok : ∀ (hno : ∀ hit ∈ hits, ¬ (hit._source.lookup name).isSome),
      hitsToGeoJson hits name gft = .ok ⟨"FeatureCollection", []⟩ := by
    intro hno
    have hfil : hits.filter (fun hit => (hit._source.lookup name).isSome) = [] := by
      rw [List.filter_eq_nil_iff]
      intro a ha
      simpa using hno a ha
    rw [hitsToGeoJson, hfil]
    rfl
  constructor
  · constructor
    · rintro ⟨msg, hmsg⟩
      by_contra hno
      push_neg at hno
      rw [hok (fun hit hm => by simpa using hno hit hm)] at hmsg
      exact Except.noConfusion hmsg
    · rintro ⟨hit, hmem, hsome⟩
      have hne : hits.filter (fun h => (h._source.lookup name).isSome) ≠ [] :=
        List.ne_nil_of_mem (List.mem_filter.mpr ⟨hmem, by simpa using hsome⟩)
      cases hf : hits.filter (fun h => (h._source.lookup name).isSome) with
      | nil => exact absurd hf hne
      | cons a l =>
        have herr : hitToFeature name gft a =
            .error (s!"Unsupported field type, expected: geo_shape or geo_point, you provided: {gft}") := by
          rw [hitToFeature, hitGeometry, if_neg h1, if_neg h2]
          rfl
        refine ⟨s!"Unsupported field type, expected: geo_shape or geo_point, you provided: {gft}", ?_⟩
        rw [hitsToGeoJson, hf, List.mapM_cons, herr]
        rfl
  · exact hok

theorem hitsToGeoJson_unsupported_type_witness :
    ((¬ ("foo" : String) = "geo_point") ∧ (¬ ("foo" : String) = "geo_shape") ∧
      (∀ hit ∈ [(⟨[("a", JsVal.num 1)], []⟩ : Hit)],
        ¬ (hit._source.lookup "location").isSome)) ∧
    hitsToGeoJson [⟨[("a", JsVal.num 1)], []⟩] "location" "foo" =
      .ok ⟨"FeatureCollection", []⟩ := by
  have hno : ∀ hit ∈ [(⟨[("a", JsVal.num 1)], []⟩ : Hit)],
      ¬ (hit._source.lookup "location").isSome := by
    intro hit hm
    rw [List.mem_singleton] at hm
    subst hm
    simp [List.lookup]
  exact ⟨⟨by decide, by decide, hno⟩,
    (hitsToGeoJson_unsupported_type [⟨[("a", JsVal.num 1)], []⟩] "location" "foo"
      (by decide) (by decide)).2 hno⟩
